import Mathlib

/-!
Verification of the msp-map-editor procedural mesh-synthesis engine
(`src/mesh.rs`, `src/schema.rs`, `src/tile_range.rs`).

The Rust code computes with `f64`/`f32`; this development models that
arithmetic exactly over `ℚ` (every operation the claims exercise —
addition, multiplication, division by powers of two, `ceil`, `%` — is
exact rational arithmetic in the source up to float rounding).
Transcendental trim-rotation math (`atan2`/`sin`) has no exact rational
counterpart and is not modelled here.
-/

/- Batteries hides the rational-arithmetic definitions behind
`@[irreducible]`; concrete scenario evaluation (`decide`) needs them to
reduce, which is a file-local elaboration concern only. -/
set_option allowUnsafeReducibility true
attribute [local semireducible] Rat.add Rat.sub Rat.mul Rat.inv Rat.div Rat.neg

namespace MspMap

/-! ## Schema (`src/schema.rs`) -/

/-- `TileRampDirection` from `schema.rs`: `Horizontal` varies along X,
`Vertical` along Z. -/
inductive TileRampDirection
  | Horizontal
  | Vertical
deriving DecidableEq, Repr

/-- `TileRamp { dir, pos, neg }` from `schema.rs`. -/
structure TileRamp where
  dir : TileRampDirection
  pos : ℚ
  neg : ℚ
deriving DecidableEq, Repr

/-- `TileHeight`: `Flat { height }` or `Ramp { height }` from `schema.rs`. -/
inductive TileHeight
  | Flat (height : ℚ)
  | Ramp (height : TileRamp)
deriving DecidableEq, Repr

/-- `TileHeight::default()` is `Flat { height: 0.0 }` — the void sentinel. -/
def TileHeight.defaultHeight : TileHeight := .Flat 0

/-- `TileHeight::center_height`. -/
def TileHeight.center_height : TileHeight → ℚ
  | .Flat h => h
  | .Ramp r => (r.pos - r.neg) / 2 + r.neg

/-- `TileHeight::min_height`. -/
def TileHeight.min_height : TileHeight → ℚ
  | .Flat h => h
  | .Ramp r => min r.pos r.neg

/-- `TileHeight::max_height`. -/
def TileHeight.max_height : TileHeight → ℚ
  | .Flat h => h
  | .Ramp r => max r.pos r.neg

/-- `TileHeight::equals_flat`. -/
def TileHeight.equals_flat (t : TileHeight) (other : ℚ) : Bool :=
  t = TileHeight.Flat other

/-- `ConnectionCondition` from `schema.rs`. -/
inductive ConnectionCondition
  | Lock
deriving DecidableEq, Repr

/-- `Connection`: `Unconditional(bool)` or `Conditional(ConnectionCondition)`. -/
inductive Connection
  | Unconditional (b : Bool)
  | Conditional (c : ConnectionCondition)
deriving DecidableEq, Repr

/-- `Connection::impassible`: `self == Unconditional(false)`. -/
def Connection.impassible (c : Connection) : Bool :=
  c = Connection.Unconditional false

/-- `ConnectionMap` with the four cardinal connections. -/
structure ConnectionMap where
  north : Connection
  east : Connection
  south : Connection
  west : Connection
deriving DecidableEq, Repr

/-- `MpsMaterial(u8)`: an atlas index in `[0, 256)`. -/
structure MpsMaterial where
  index : Fin 256
deriving DecidableEq, Repr

/-- `ATLAS_SIZE = (16, 16)`. -/
def ATLAS_SIZE : ℕ × ℕ := (16, 16)

/-- `MpsMaterial::U_INCREMENT = 1.0 / ATLAS_SIZE.0`. -/
def MpsMaterial.U_INCREMENT : ℚ := 1 / (ATLAS_SIZE.1 : ℚ)

/-- `MpsMaterial::V_INCREMENT = 1.0 / ATLAS_SIZE.1`. -/
def MpsMaterial.V_INCREMENT : ℚ := 1 / (ATLAS_SIZE.2 : ℚ)

/-- `MpsMaterial::to_uv_coords`, returning `(u1, v1, u2, v2)`:
`u = (i % 16) / 16`, `v = (16 - 1 - i / 16) / 16`, each corner inset by
`0.001`. -/
def MpsMaterial.to_uv_coords (m : MpsMaterial) : ℚ × ℚ × ℚ × ℚ :=
  let u : ℚ := ((m.index.val % 16 : ℕ) : ℚ) / 16
  let v : ℚ := ((16 - 1 - m.index.val / 16 : ℕ) : ℚ) / 16
  (u + 1/1000, v + 1/1000,
   u + MpsMaterial.U_INCREMENT - 1/1000, v + MpsMaterial.V_INCREMENT - 1/1000)

/-- `WallMaterialMap`: one material stack per direction. -/
structure WallMaterialMap where
  north : List MpsMaterial
  east : List MpsMaterial
  south : List MpsMaterial
  west : List MpsMaterial
deriving DecidableEq, Repr

/-- `TileData`, with the `MaterialMap` flattened into `material` /
`wall_material` as `mesh.rs` accesses it. -/
structure TileData where
  height : TileHeight
  connections : ConnectionMap
  material : MpsMaterial
  wall_material : WallMaterialMap
deriving DecidableEq, Repr

/-- `TileData::ramp`. -/
def TileData.ramp (t : TileData) : Bool :=
  match t.height with
  | .Ramp _ => true
  | .Flat _ => false

/-- The row-major tile grid (`grid::Grid<TileData>`), indexed `(y, x)`. -/
structure Grid where
  rows : ℕ
  cols : ℕ
  tiles : ℕ → ℕ → TileData

/-- `map[(y, x)]`. -/
def Grid.get (g : Grid) (y x : ℕ) : TileData := g.tiles y x

/-- `TileRange { start, end }` from `tile_range.rs` (inclusive rectangle;
`mesh_top_highlights` casts the coordinates to `usize`, so they are
modelled as `ℕ`). -/
structure TileRange where
  startX : ℕ
  startY : ℕ
  endX : ℕ
  endY : ℕ
deriving DecidableEq, Repr

/-- `TileRange::area`: `(end.x - start.x + 1) * (end.y - start.y + 1)`. -/
def TileRange.area (r : TileRange) : ℕ :=
  (r.endX - r.startX + 1) * (r.endY - r.startY + 1)

/-- The inclusive Rust range `a..=b` as a list. -/
def rangeIncl (a b : ℕ) : List ℕ :=
  (List.range (b + 1 - a)).map (a + ·)

/-! ## Mesh accumulator (`State` in `mesh.rs`) -/

/-- `Direction` from `sync.rs`. -/
inductive Direction
  | West
  | East
  | North
  | South
deriving DecidableEq, Repr

/-- The `State` accumulator of `mesh.rs`: growable `positions`, `uvs`,
`indices` buffers (the borrowed `map` is passed separately here). -/
structure State where
  positions : List (ℚ × ℚ × ℚ)
  uvs : List (ℚ × ℚ)
  indices : List ℕ
deriving DecidableEq, Repr

/-- `State::new` (empty buffers). -/
def State.new : State := ⟨[], [], []⟩

/-- `State::push_quad_indices`: triangles `[i, i+3, i+1]` and `[i, i+2, i+3]`. -/
def State.push_quad_indices (s : State) (index_start : ℕ) : State :=
  { s with indices := s.indices ++
      [index_start, index_start + 3, index_start + 1,
       index_start, index_start + 2, index_start + 3] }

/-- `State::push_flipped_quad_indices`: triangles `[i, i+1, i+3]` and
`[i, i+3, i+2]`. -/
def State.push_flipped_quad_indices (s : State) (index_start : ℕ) : State :=
  { s with indices := s.indices ++
      [index_start, index_start + 1, index_start + 3,
       index_start, index_start + 3, index_start + 2] }

/-- `State::push_quad_uv_indices`: push the four UV corners
`(u1,v1),(u2,v1),(u1,v2),(u2,v2)` and a forward-wound quad. -/
def State.push_quad_uv_indices (s : State) (uv : ℚ × ℚ × ℚ × ℚ)
    (index_start : ℕ) : State :=
  match uv with
  | (u1, v1, u2, v2) =>
    State.push_quad_indices
      { s with uvs := s.uvs ++ [(u1, v1), (u2, v1), (u1, v2), (u2, v2)] }
      index_start

/-! ## Top faces (`internal_mesh_top`) -/

/-- `internal_mesh_top` from `mesh.rs`: the flat or sloped top quad of one
tile, with the highlight `y_offset`. -/
def internal_mesh_top (s : State) (x y : ℕ) (tile : TileData)
    (y_offset : ℚ) : State :=
  let xf : ℚ := x
  let yf : ℚ := y
  let uv := tile.material.to_uv_coords
  match tile.height with
  | .Flat h =>
    let height32 := h + y_offset
    let index_start := s.positions.length
    let s1 := { s with positions := s.positions ++
        [(xf - 1/2, height32, yf - 1/2),
         (xf + 1/2, height32, yf - 1/2),
         (xf - 1/2, height32, yf + 1/2),
         (xf + 1/2, height32, yf + 1/2)] }
    s1.push_quad_uv_indices uv index_start
  | .Ramp r =>
    let index_start := s.positions.length
    let dir_v := r.dir = TileRampDirection.Vertical
    let pos := r.pos + y_offset
    let neg := r.neg + y_offset
    let s1 := { s with positions := s.positions ++
        [(xf - 1/2, neg, yf - 1/2),
         (xf + 1/2, if dir_v then neg else pos, yf - 1/2),
         (xf - 1/2, if dir_v then pos else neg, yf + 1/2),
         (xf + 1/2, pos, yf + 1/2)] }
    s1.push_quad_uv_indices uv index_start

/-- `mesh_top_highlights` from `mesh.rs`: one top quad per coordinate of the
inclusive range, every tile (void or not), with `y_offset = 0.01`. -/
def mesh_top_highlights_state (g : Grid) (r : TileRange) : State :=
  (rangeIncl r.startY r.endY).foldl (fun s y =>
    (rangeIncl r.startX r.endX).foldl (fun s x =>
      internal_mesh_top s x y (g.get y x) (1/100)) s) State.new

/-- The floor-overlay quad built inline in `mesh_map` (`mesh.rs`
lines 368–381): four corner positions and one `push_quad_uv_indices`. -/
def floor_state (g : Grid) : State :=
  let x2 : ℚ := (g.cols : ℚ) - 1/2
  let y2 : ℚ := (g.rows : ℚ) - 1/2
  let s : State := { State.new with positions :=
      [(-(1/2), 0, -(1/2)), (x2, 0, -(1/2)), (-(1/2), 0, y2), (x2, 0, y2)] }
  s.push_quad_uv_indices (0, 0, (g.cols : ℚ), (g.rows : ℚ)) 0

/-! ## Walls (`mesh_wall`) -/

/-- The wall-material stack used by `mesh_wall` for a direction. -/
def wall_materials (tile : TileData) : Direction → List MpsMaterial
  | .West => tile.wall_material.west
  | .East => tile.wall_material.east
  | .North => tile.wall_material.north
  | .South => tile.wall_material.south

/-- Rust truncation toward zero, as used by the float `%` operator. -/
def truncQ (q : ℚ) : ℤ := if 0 ≤ q then q.floor else q.ceil

/-- `min_height.ceil() as usize` (a Rust float-to-`usize` cast saturates
at 0 for negative values, matching `Int.toNat`). -/
def segCount (min_height : ℚ) : ℕ := min_height.ceil.toNat

/-- `min_height % 1.0`, replaced by `1.0` when the remainder is `0.0`. -/
def lastSegmentOf (min_height : ℚ) : ℚ :=
  let r := min_height - (truncQ min_height : ℚ)
  if r = 0 then 1 else r

/-- The material lookup of the wall-segment loop:
`materials.get(segments - 1 - seg).or_else(|| materials.last())`. -/
def wall_material_for (materials : List MpsMaterial) (segments seg : ℕ) :
    Option MpsMaterial :=
  (materials.get? (segments - 1 - seg)).orElse (fun _ => materials.getLast?)

/-- The 4 positions a wall segment pushes, per direction
(`mesh.rs` lines 612–689). -/
def seg_positions (x y : ℕ) (seg_f seg_height : ℚ) :
    Direction → List (ℚ × ℚ × ℚ)
  | .West =>
    [((x : ℚ) - 1/2, seg_f + seg_height, (y : ℚ) - 1/2),
     ((x : ℚ) - 1/2, seg_f, (y : ℚ) - 1/2),
     ((x : ℚ) - 1/2, seg_f + seg_height, (y : ℚ) + 1/2),
     ((x : ℚ) - 1/2, seg_f, (y : ℚ) + 1/2)]
  | .East =>
    [((x : ℚ) + 1/2, seg_f + seg_height, (y : ℚ) - 1/2),
     ((x : ℚ) + 1/2, seg_f, (y : ℚ) - 1/2),
     ((x : ℚ) + 1/2, seg_f + seg_height, (y : ℚ) + 1/2),
     ((x : ℚ) + 1/2, seg_f, (y : ℚ) + 1/2)]
  | .North =>
    [((x : ℚ) - 1/2, seg_f, (y : ℚ) - 1/2),
     ((x : ℚ) + 1/2, seg_f, (y : ℚ) - 1/2),
     ((x : ℚ) - 1/2, seg_f + seg_height, (y : ℚ) - 1/2),
     ((x : ℚ) + 1/2, seg_f + seg_height, (y : ℚ) - 1/2)]
  | .South =>
    [((x : ℚ) - 1/2, seg_f, (y : ℚ) + 1/2),
     ((x : ℚ) + 1/2, seg_f, (y : ℚ) + 1/2),
     ((x : ℚ) - 1/2, seg_f + seg_height, (y : ℚ) + 1/2),
     ((x : ℚ) + 1/2, seg_f + seg_height, (y : ℚ) + 1/2)]

/-- The 4 UVs a wall segment pushes, per direction. -/
def seg_uvs (u1 v1 u2 v2 : ℚ) : Direction → List (ℚ × ℚ)
  | .West => [(u1, v1), (u1, v2), (u2, v1), (u2, v2)]
  | .East => [(u2, v1), (u2, v2), (u1, v1), (u1, v2)]
  | .North => [(u2, v2), (u1, v2), (u2, v1), (u1, v1)]
  | .South => [(u1, v2), (u2, v2), (u1, v1), (u2, v1)]

/-- Whether a direction uses `push_flipped_quad_indices` (West and South)
rather than `push_quad_indices` (East and North). -/
def seg_flipped : Direction → Bool
  | .West => true
  | .East => false
  | .North => false
  | .South => true

/-- The early-stop check at the bottom of each wall-segment iteration: the
in-bounds neighbor's `min_height` already reaches the segment's base. -/
def seg_stop (g : Grid) (x y : ℕ) (seg_f : ℚ) : Direction → Bool
  | .West => x ≠ 0 ∧ seg_f ≤ (g.get y (x - 1)).height.min_height
  | .East => x ≠ g.cols - 1 ∧ seg_f ≤ (g.get y (x + 1)).height.min_height
  | .North => y ≠ 0 ∧ seg_f ≤ (g.get (y - 1) x).height.min_height
  | .South => y ≠ g.rows - 1 ∧ seg_f ≤ (g.get (y + 1) x).height.min_height

/-- The position/UV/index pushes of one wall-segment iteration: the 4
vertices, the 4 possibly-cropped UVs, and a forward or flipped quad
depending on the direction. -/
def wall_seg_push (s : State) (x y : ℕ) (m : MpsMaterial)
    (segments seg : ℕ) (last_segment : ℚ) (direction : Direction)
    (index_start : ℕ) : State :=
  let uv := m.to_uv_coords
  let v2 := if seg = segments - 1 then
      uv.2.2.2 - MpsMaterial.V_INCREMENT + last_segment * MpsMaterial.V_INCREMENT
    else uv.2.2.2
  let seg_height := if seg = segments - 1 then last_segment else 1
  let s1 : State := { s with
    positions := s.positions ++ seg_positions x y (seg : ℚ) seg_height direction,
    uvs := s.uvs ++ seg_uvs uv.1 uv.2.1 uv.2.2.1 v2 direction }
  if seg_flipped direction then s1.push_flipped_quad_indices index_start
  else s1.push_quad_indices index_start

/-- The wall-segment loop `for seg in (0..segments).rev()`: the fuel
argument `n` means `seg = n - 1` is emitted next, so the initial call has
`n = segments`. Returns `(none, s)` from the `?` on a missing material. -/
def wall_segments (g : Grid) (x y : ℕ) (materials : List MpsMaterial)
    (segments : ℕ) (last_segment : ℚ) (direction : Direction) :
    ℕ → ℕ → State → Option Unit × State
  | 0, _, s => (some (), s)
  | n + 1, index_start, s =>
    let seg := n
    match wall_material_for materials segments seg with
    | none => (none, s)
    | some m =>
      let s2 := wall_seg_push s x y m segments seg last_segment direction
        index_start
      if seg_stop g x y (seg : ℚ) direction then (some (), s2)
      else wall_segments g x y materials segments last_segment direction n
        (index_start + 4) s2

/-- The 3 positions of the triangular ramp cap, per direction
(`mesh.rs` lines 542–587). -/
def cap_positions (x y : ℕ) (min_h max_h y_off : ℚ) :
    Direction → List (ℚ × ℚ × ℚ)
  | .West =>
    [((x : ℚ) - 1/2, min_h, (y : ℚ) - 1/2),
     ((x : ℚ) - 1/2, min_h, (y : ℚ) + 1/2),
     ((x : ℚ) - 1/2, max_h, (y : ℚ) + y_off)]
  | .East =>
    [((x : ℚ) + 1/2, min_h, (y : ℚ) - 1/2),
     ((x : ℚ) + 1/2, min_h, (y : ℚ) + 1/2),
     ((x : ℚ) + 1/2, max_h, (y : ℚ) + y_off)]
  | .North =>
    [((x : ℚ) - 1/2, min_h, (y : ℚ) - 1/2),
     ((x : ℚ) + 1/2, min_h, (y : ℚ) - 1/2),
     ((x : ℚ) + y_off, max_h, (y : ℚ) - 1/2)]
  | .South =>
    [((x : ℚ) - 1/2, min_h, (y : ℚ) + 1/2),
     ((x : ℚ) + 1/2, min_h, (y : ℚ) + 1/2),
     ((x : ℚ) + y_off, max_h, (y : ℚ) + 1/2)]

/-- The 3 UVs of the triangular ramp cap, per direction. -/
def cap_uvs (u1 u2 v2 high_v : ℚ) (pos_is_max : Bool) :
    Direction → List (ℚ × ℚ)
  | .West => [(u1, v2), (u2, v2), (if pos_is_max then u2 else u1, high_v)]
  | .East => [(u2, v2), (u1, v2), (if pos_is_max then u1 else u2, high_v)]
  | .North => [(u2, v2), (u1, v2), (if pos_is_max then u1 else u2, high_v)]
  | .South => [(u1, v2), (u2, v2), (if pos_is_max then u2 else u1, high_v)]

/-- The 3 cap indices: West and South wind `[i, i+1, i+2]`, East and North
wind `[i, i+2, i+1]`. -/
def cap_indices (index_start : ℕ) : Direction → List ℕ
  | .West => [index_start, index_start + 1, index_start + 2]
  | .East => [index_start, index_start + 2, index_start + 1]
  | .North => [index_start, index_start + 2, index_start + 1]
  | .South => [index_start, index_start + 1, index_start + 2]

/-- The ramp-cap triangle pushes of `mesh_wall`: 3 vertices, 3 UVs (the
apex V stretched by `(min_height - max_height) * V_INCREMENT`), and one
triangle wound per direction, at `index_start = positions.len()`. -/
def cap_push (s : State) (x y : ℕ) (m : MpsMaterial) (r : TileRamp)
    (min_height : ℚ) (direction : Direction) : State :=
  let uv := m.to_uv_coords
  let max_height := max r.pos r.neg
  let pos_is_max : Bool := max_height = r.pos
  let y_off : ℚ := if pos_is_max then 1/2 else -(1/2)
  let high_v := uv.2.2.2 + (min_height - max_height) * MpsMaterial.V_INCREMENT
  { s with
    positions := s.positions ++
      cap_positions x y min_height max_height y_off direction,
    uvs := s.uvs ++ cap_uvs uv.1 uv.2.2.1 uv.2.2.2 high_v pos_is_max direction,
    indices := s.indices ++ cap_indices s.positions.length direction }

/-- `mesh_wall` from `mesh.rs`: optional ramp cap, then unit wall segments
walking downward. Returns the mutated state together with the `Option`
result (`none` exactly when a `?` fired). -/
def mesh_wall (s : State) (g : Grid) (x y : ℕ) (tile : TileData)
    (direction : Direction) : Option Unit × State :=
  let index_start := s.positions.length
  let materials := wall_materials tile direction
  let min_height := tile.height.min_height
  let segments := segCount min_height
  let last_segment := lastSegmentOf min_height
  match tile.height with
  | .Flat _ =>
    wall_segments g x y materials segments last_segment direction segments
      index_start s
  | .Ramp r =>
    match materials.head? with
    | none => (none, s)
    | some m =>
      let s1 := cap_push s x y m r min_height direction
      wall_segments g x y materials segments last_segment direction segments
        (index_start + 3) s1

/-! ## Orchestration (`mesh_map`) -/

/-- The per-direction wall condition of `mesh_map` for a `Flat { height }`
tile (`mesh.rs` lines 54–67): map boundary, or the neighbor's `min_height`
strictly below this tile's height. -/
def flat_wall_fires (g : Grid) (x y : ℕ) (h : ℚ) : Direction → Bool
  | .West => x = 0 ∨ (g.get y (x - 1)).height.min_height < h
  | .East => x = g.cols - 1 ∨ (g.get y (x + 1)).height.min_height < h
  | .North => y = 0 ∨ (g.get (y - 1) x).height.min_height < h
  | .South => y = g.rows - 1 ∨ (g.get (y + 1) x).height.min_height < h

/-- The per-direction wall condition of `mesh_map` for a `Ramp` tile
(`mesh.rs` lines 68–86): the ramp axis must match the direction, and the
neighbor's `center_height` must be strictly below the ramp's. -/
def ramp_wall_fires (g : Grid) (x y : ℕ) (dir_v : Bool) (ch : ℚ) :
    Direction → Bool
  | .West => dir_v ∧ (x = 0 ∨ (g.get y (x - 1)).height.center_height < ch)
  | .East => dir_v ∧ (x = g.cols - 1 ∨ (g.get y (x + 1)).height.center_height < ch)
  | .North => !dir_v ∧ (y = 0 ∨ (g.get (y - 1) x).height.center_height < ch)
  | .South => !dir_v ∧ (y = g.rows - 1 ∨ (g.get (y + 1) x).height.center_height < ch)

/-- One iteration of the `mesh_map` tile loop restricted to the shared
atlas-textured accumulator: skip void tiles, emit the top face, then the
walls whose condition fires. -/
def tile_step (g : Grid) (y x : ℕ) (s : State) : State :=
  let tile := g.get y x
  if tile.height = TileHeight.defaultHeight then s
  else
    let s0 := internal_mesh_top s x y tile 0
    match tile.height with
    | .Flat h =>
      let s1 := if flat_wall_fires g x y h .West then
        (mesh_wall s0 g x y tile .West).2 else s0
      let s2 := if flat_wall_fires g x y h .East then
        (mesh_wall s1 g x y tile .East).2 else s1
      let s3 := if flat_wall_fires g x y h .North then
        (mesh_wall s2 g x y tile .North).2 else s2
      if flat_wall_fires g x y h .South then
        (mesh_wall s3 g x y tile .South).2 else s3
    | .Ramp r =>
      let dir_v : Bool := r.dir = TileRampDirection.Vertical
      let ch := tile.height.center_height
      let s1 := if ramp_wall_fires g x y dir_v ch .West then
        (mesh_wall s0 g x y tile .West).2 else s0
      let s2 := if ramp_wall_fires g x y dir_v ch .East then
        (mesh_wall s1 g x y tile .East).2 else s1
      let s3 := if ramp_wall_fires g x y dir_v ch .North then
        (mesh_wall s2 g x y tile .North).2 else s2
      if ramp_wall_fires g x y dir_v ch .South then
        (mesh_wall s3 g x y tile .South).2 else s3

/-- The atlas-textured accumulator produced by the `mesh_map` tile loop
(`map.indexed_iter()` is row-major: `y` outer, `x` inner). -/
def mesh_map_state (g : Grid) : State :=
  (List.range g.rows).foldl (fun s y =>
    (List.range g.cols).foldl (fun s x => tile_step g y x s) s) State.new

/-! ## Blocks (`add_block` in `mesh_map`) -/

/-- `BLOCK_SIZE = 1.0 / 8.0`. -/
def BLOCK_SIZE : ℚ := 1/8

/-- `BLOCK_SIZE_2 = BLOCK_SIZE / 2.0`. -/
def BLOCK_SIZE_2 : ℚ := BLOCK_SIZE / 2

/-- One barrier block spawned by the `add_block` closure: a
`Cuboid::new(width, BLOCK_SIZE, depth)` translated to `(x, y, z)` where
`y = center_height + BLOCK_SIZE_2`. -/
structure Block where
  width : ℚ
  depth : ℚ
  x : ℚ
  y : ℚ
  z : ℚ
deriving DecidableEq, Repr

/-- The west block of a tile (`mesh.rs` lines 107–117): needs `x > 0`, an
impassible west connection, both tiles non-ramp, and a strictly-greater
(flush, inset by `BLOCK_SIZE_2`) or exactly-equal (centered) height. -/
def tile_blocks_west (g : Grid) (y x : ℕ) : List Block :=
  let tile := g.get y x
  let center_height := tile.height.center_height
  if 0 < x ∧ tile.connections.west.impassible ∧ !tile.ramp then
    let neighbor := g.get y (x - 1)
    if !neighbor.ramp then
      let neighbor_height := neighbor.height.center_height
      if neighbor_height < center_height then
        [⟨BLOCK_SIZE, 1, (x : ℚ) - 1/2 + BLOCK_SIZE_2,
          center_height + BLOCK_SIZE_2, (y : ℚ)⟩]
      else if center_height = neighbor_height then
        [⟨BLOCK_SIZE, 1, (x : ℚ) - 1/2, center_height + BLOCK_SIZE_2, (y : ℚ)⟩]
      else []
    else []
  else []

/-- The east block of a tile (`mesh.rs` lines 118–124): needs
`x < cols - 1`, an impassible east connection, this tile non-ramp, and a
strictly-greater height — no neighbor-ramp check and no equal-height
branch. -/
def tile_blocks_east (g : Grid) (y x : ℕ) : List Block :=
  let tile := g.get y x
  let center_height := tile.height.center_height
  if x < g.cols - 1 ∧ tile.connections.east.impassible ∧ !tile.ramp ∧
      (g.get y (x + 1)).height.center_height < center_height then
    [⟨BLOCK_SIZE, 1, (x : ℚ) + 1/2 - BLOCK_SIZE_2,
      center_height + BLOCK_SIZE_2, (y : ℚ)⟩]
  else []

/-- The north block of a tile (`mesh.rs` lines 125–135): same shape as the
west case, along Z. -/
def tile_blocks_north (g : Grid) (y x : ℕ) : List Block :=
  let tile := g.get y x
  let center_height := tile.height.center_height
  if 0 < y ∧ tile.connections.north.impassible ∧ !tile.ramp then
    let neighbor := g.get (y - 1) x
    if !neighbor.ramp then
      let neighbor_height := neighbor.height.center_height
      if neighbor_height < center_height then
        [⟨1, BLOCK_SIZE, (x : ℚ), center_height + BLOCK_SIZE_2,
          (y : ℚ) - 1/2 + BLOCK_SIZE_2⟩]
      else if center_height = neighbor_height then
        [⟨1, BLOCK_SIZE, (x : ℚ), center_height + BLOCK_SIZE_2, (y : ℚ) - 1/2⟩]
      else []
    else []
  else []

/-- The south block of a tile (`mesh.rs` lines 136–142): same shape as the
east case, along Z. -/
def tile_blocks_south (g : Grid) (y x : ℕ) : List Block :=
  let tile := g.get y x
  let center_height := tile.height.center_height
  if y < g.rows - 1 ∧ tile.connections.south.impassible ∧ !tile.ramp ∧
      (g.get (y + 1) x).height.center_height < center_height then
    [⟨1, BLOCK_SIZE, (x : ℚ), center_height + BLOCK_SIZE_2,
      (y : ℚ) + 1/2 - BLOCK_SIZE_2⟩]
  else []

/-- The blocks one (non-void) tile contributes (`mesh.rs` lines 94–142),
in west, east, north, south order. -/
def tile_blocks (g : Grid) (y x : ℕ) : List Block :=
  tile_blocks_west g y x ++ tile_blocks_east g y x ++
    tile_blocks_north g y x ++ tile_blocks_south g y x

/-- All blocks `mesh_map` spawns, in tile-iteration order (void tiles are
skipped by the `continue`). -/
def mesh_map_blocks (g : Grid) : List Block :=
  (List.range g.rows).flatMap fun y =>
    (List.range g.cols).flatMap fun x =>
      if (g.get y x).height = TileHeight.defaultHeight then []
      else tile_blocks g y x

/-! ## Trims (`add_trim` in `mesh_map`), by count only

The trim transforms involve `sin(atan2(..))`, which has no exact rational
counterpart; each of the four trim guards calls `add_trim` exactly once, so
the number of spawned trim cuboids is captured exactly. -/

/-- How many trims one (non-void) tile spawns (`mesh.rs` lines 302–313):
one per exposed edge, an edge being exposed when it is a map boundary or
the neighbor has the void sentinel height. -/
def tile_trim_count (g : Grid) (y x : ℕ) : ℕ :=
  (if x = 0 ∨ (g.get y (x - 1)).height = TileHeight.defaultHeight then 1 else 0) +
  (if x = g.cols - 1 ∨ (g.get y (x + 1)).height = TileHeight.defaultHeight then 1 else 0) +
  (if y = 0 ∨ (g.get (y - 1) x).height = TileHeight.defaultHeight then 1 else 0) +
  (if y = g.rows - 1 ∨ (g.get (y + 1) x).height = TileHeight.defaultHeight then 1 else 0)

/-- Total count of trim cuboids `mesh_map` spawns. -/
def mesh_map_trim_count (g : Grid) : ℕ :=
  ((List.range g.rows).map fun y =>
    ((List.range g.cols).map fun x =>
      if (g.get y x).height = TileHeight.defaultHeight then 0
      else tile_trim_count g y x).sum).sum

/-! ## Concrete fixtures -/

/-- `TileData::default()`: void height, passable connections, material 0,
one-entry wall stacks. -/
def defaultTile : TileData :=
  { height := TileHeight.defaultHeight
    connections :=
      { north := .Unconditional true, east := .Unconditional true
        south := .Unconditional true, west := .Unconditional true }
    material := ⟨0⟩
    wall_material := { north := [⟨0⟩], east := [⟨0⟩], south := [⟨0⟩], west := [⟨0⟩] } }

/-- A flat tile of the given height, otherwise default. -/
def flatTile (h : ℚ) : TileData := { defaultTile with height := .Flat h }

/-! ## Claim theorems -/

/-- Claim C6: for every material index `i ∈ [0, 256)`, `to_uv_coords`
returns `(col/16 + 0.001, row/16 + 0.001, (col+1)/16 - 0.001,
(row+1)/16 - 0.001)` with `col = i % 16`, `row = 15 - i / 16`, and these
satisfy `0 ≤ u1 < u2 ≤ 1` and `0 ≤ v1 < v2 ≤ 1`. -/
theorem c6_to_uv_coords_spec (m : MpsMaterial) :
    m.to_uv_coords.1 = ((m.index.val % 16 : ℕ) : ℚ) / 16 + 1/1000 ∧
    m.to_uv_coords.2.1 = ((15 - m.index.val / 16 : ℕ) : ℚ) / 16 + 1/1000 ∧
    m.to_uv_coords.2.2.1 = (((m.index.val % 16 : ℕ) : ℚ) + 1) / 16 - 1/1000 ∧
    m.to_uv_coords.2.2.2 = (((15 - m.index.val / 16 : ℕ) : ℚ) + 1) / 16 - 1/1000 ∧
    0 ≤ m.to_uv_coords.1 ∧ m.to_uv_coords.1 < m.to_uv_coords.2.2.1 ∧
    m.to_uv_coords.2.2.1 ≤ 1 ∧
    0 ≤ m.to_uv_coords.2.1 ∧ m.to_uv_coords.2.1 < m.to_uv_coords.2.2.2 ∧
    m.to_uv_coords.2.2.2 ≤ 1 := by
  obtain ⟨⟨i, hi⟩⟩ := m
  have hmod : i % 16 ≤ 15 := by omega
  have hdiv : 16 - 1 - i / 16 = 15 - i / 16 := by omega
  have hrow : 15 - i / 16 ≤ 15 := by omega
  have hmodq : ((i % 16 : ℕ) : ℚ) ≤ 15 := by exact_mod_cast hmod
  have hrowq : ((15 - i / 16 : ℕ) : ℚ) ≤ 15 := by exact_mod_cast hrow
  have hmodq0 : (0 : ℚ) ≤ ((i % 16 : ℕ) : ℚ) := Nat.cast_nonneg _
  have hrowq0 : (0 : ℚ) ≤ ((15 - i / 16 : ℕ) : ℚ) := Nat.cast_nonneg _
  simp only [MpsMaterial.to_uv_coords, MpsMaterial.U_INCREMENT,
    MpsMaterial.V_INCREMENT, ATLAS_SIZE, hdiv]
  norm_num
  refine ⟨by ring, by ring, ?_, ?_, ?_, ?_, ?_, ?_⟩ <;> linarith

/-- Claim C8: the top-face vertices `internal_mesh_top` pushes with the
highlight offset `0.01` have the same X, Z and UVs as those it pushes with
offset `0`, and a Y larger by exactly `0.01` — relating each
`mesh_top_highlights` quad to the corresponding `mesh_map` base quad. -/
theorem c8_highlight_offset (s t : State) (x y : ℕ) (tile : TileData) :
    (internal_mesh_top s x y tile (1/100)).positions.drop s.positions.length =
      ((internal_mesh_top t x y tile 0).positions.drop t.positions.length).map
        (fun p => (p.1, p.2.1 + 1/100, p.2.2)) ∧
    (internal_mesh_top s x y tile (1/100)).uvs.drop s.uvs.length =
      (internal_mesh_top t x y tile 0).uvs.drop t.uvs.length := by
  cases htile : tile.height with
  | Flat h =>
    simp [internal_mesh_top, htile, State.push_quad_uv_indices,
      State.push_quad_indices, List.drop_left]
  | Ramp r =>
    by_cases hd : r.dir = TileRampDirection.Vertical <;>
      simp [internal_mesh_top, htile, State.push_quad_uv_indices,
        State.push_quad_indices, List.drop_left, hd]

/-- `internal_mesh_top` always pushes exactly 4 positions, 4 UVs and
6 indices. -/
theorem imt_lengths (s : State) (x y : ℕ) (tile : TileData) (o : ℚ) :
    (internal_mesh_top s x y tile o).positions.length = s.positions.length + 4 ∧
    (internal_mesh_top s x y tile o).uvs.length = s.uvs.length + 4 ∧
    (internal_mesh_top s x y tile o).indices.length = s.indices.length + 6 := by
  cases htile : tile.height with
  | Flat h =>
    simp [internal_mesh_top, htile, State.push_quad_uv_indices,
      State.push_quad_indices]
  | Ramp r =>
    simp [internal_mesh_top, htile, State.push_quad_uv_indices,
      State.push_quad_indices]

/-- The inner x-loop of `mesh_top_highlights` grows the buffers by 4
positions, 4 UVs and 6 indices per coordinate. -/
theorem highlights_inner_lengths (g : Grid) (y : ℕ) (xs : List ℕ) (s : State) :
    ((xs.foldl (fun s x => internal_mesh_top s x y (g.get y x) (1/100)) s).positions.length
       = s.positions.length + 4 * xs.length) ∧
    ((xs.foldl (fun s x => internal_mesh_top s x y (g.get y x) (1/100)) s).uvs.length
       = s.uvs.length + 4 * xs.length) ∧
    ((xs.foldl (fun s x => internal_mesh_top s x y (g.get y x) (1/100)) s).indices.length
       = s.indices.length + 6 * xs.length) := by
  induction xs generalizing s with
  | nil => simp
  | cons a l ih =>
    obtain ⟨hp, hu, hidx⟩ := ih (internal_mesh_top s a y (g.get y a) (1/100))
    obtain ⟨hp0, hu0, hidx0⟩ := imt_lengths s a y (g.get y a) (1/100)
    simp only [List.foldl_cons, List.length_cons, hp, hu, hidx, hp0, hu0, hidx0]
    omega

/-- The whole `mesh_top_highlights` double loop grows the buffers by 4
positions, 4 UVs and 6 indices per visited coordinate. -/
theorem highlights_outer_lengths (g : Grid) (r : TileRange) (ys : List ℕ) (s : State) :
    ((ys.foldl (fun s y => (rangeIncl r.startX r.endX).foldl
        (fun s x => internal_mesh_top s x y (g.get y x) (1/100)) s) s).positions.length
       = s.positions.length + 4 * ((rangeIncl r.startX r.endX).length * ys.length)) ∧
    ((ys.foldl (fun s y => (rangeIncl r.startX r.endX).foldl
        (fun s x => internal_mesh_top s x y (g.get y x) (1/100)) s) s).indices.length
       = s.indices.length + 6 * ((rangeIncl r.startX r.endX).length * ys.length)) := by
  induction ys generalizing s with
  | nil => simp
  | cons a l ih =>
    obtain ⟨hp, hidx⟩ :=
      ih ((rangeIncl r.startX r.endX).foldl
        (fun s x => internal_mesh_top s x a (g.get a x) (1/100)) s)
    obtain ⟨hp0, _, hidx0⟩ := highlights_inner_lengths g a (rangeIncl r.startX r.endX) s
    simp only [List.foldl_cons, List.length_cons, hp, hidx, hp0, hidx0]
    constructor <;> ring

/-- Claim C10: `mesh_top_highlights` emits one top quad for every
coordinate of the range, with no void filtering, so the mesh holds exactly
`4 * area` vertices and `2 * area` triangles (`6 * area` indices). -/
theorem c10_highlight_counts (g : Grid) (r : TileRange)
    (hx : r.startX ≤ r.endX) (hy : r.startY ≤ r.endY) :
    (mesh_top_highlights_state g r).positions.length = 4 * r.area ∧
    (mesh_top_highlights_state g r).indices.length = 3 * (2 * r.area) := by
  obtain ⟨hp, hidx⟩ :=
    highlights_outer_lengths g r (rangeIncl r.startY r.endY) State.new
  have hlx : (rangeIncl r.startX r.endX).length = r.endX - r.startX + 1 := by
    simp [rangeIncl]; omega
  have hly : (rangeIncl r.startY r.endY).length = r.endY - r.startY + 1 := by
    simp [rangeIncl]; omega
  refine ⟨?_, ?_⟩
  · rw [mesh_top_highlights_state, hp, hlx, hly, TileRange.area]
    simp [State.new]
  · rw [mesh_top_highlights_state, hidx, hlx, hly, TileRange.area]
    simp [State.new]; ring

/-- Witness for C10: a concrete 2-by-2 range over a 2-by-2 grid of void
tiles still yields 16 vertices and 8 triangles. -/
theorem c10_highlight_counts_witness :
    (mesh_top_highlights_state ⟨2, 2, fun _ _ => defaultTile⟩ ⟨0, 0, 1, 1⟩).positions.length
        = 4 * TileRange.area ⟨0, 0, 1, 1⟩ ∧
    (mesh_top_highlights_state ⟨2, 2, fun _ _ => defaultTile⟩ ⟨0, 0, 1, 1⟩).indices.length
        = 3 * (2 * TileRange.area ⟨0, 0, 1, 1⟩) :=
  c10_highlight_counts ⟨2, 2, fun _ _ => defaultTile⟩ ⟨0, 0, 1, 1⟩
    (by decide) (by decide)

/-- A 2-by-2 grid of flat tiles of height 1. -/
def c5grid : Grid := ⟨2, 2, fun _ _ => flatTile 1⟩

/-- Claim C5: two horizontally or vertically adjacent flat tiles of equal
non-default height with a passable connection cause no wall to be emitted
on their shared boundary from either tile — the `mesh_map` wall condition
is false on both facing directions. -/
theorem c5_no_wall_on_equal_height (g : Grid) (x y nx ny : ℕ) (h : ℚ)
    (hadj : (nx = x + 1 ∧ ny = y ∧ x + 1 < g.cols) ∨
            (nx = x ∧ ny = y + 1 ∧ y + 1 < g.rows))
    (hflat : (g.get y x).height = .Flat h)
    (hnflat : (g.get ny nx).height = .Flat h)
    (hnd : h ≠ 0)
    (hpass : (if ny = y then (g.get y x).connections.east
              else (g.get y x).connections.south).impassible = false) :
    flat_wall_fires g x y h (if ny = y then .East else .South) = false ∧
    flat_wall_fires g nx ny h (if ny = y then .West else .North) = false := by
  rcases hadj with ⟨hnx, hny, hb⟩ | ⟨hnx, hny, hb⟩
  · subst hnx; subst hny
    rw [if_pos rfl, if_pos rfl]
    refine ⟨?_, ?_⟩
    · simp only [flat_wall_fires, hnflat, TileHeight.min_height,
        decide_eq_false_iff_not]
      rintro (hc | hc)
      · omega
      · exact lt_irrefl _ hc
    · simp only [flat_wall_fires, Nat.add_sub_cancel, hflat,
        TileHeight.min_height, decide_eq_false_iff_not]
      rintro (hc | hc)
      · omega
      · exact lt_irrefl _ hc
  · subst hnx; subst hny
    have hne : y + 1 ≠ y := by omega
    rw [if_neg hne, if_neg hne]
    refine ⟨?_, ?_⟩
    · simp only [flat_wall_fires, hnflat, TileHeight.min_height,
        decide_eq_false_iff_not]
      rintro (hc | hc)
      · omega
      · exact lt_irrefl _ hc
    · simp only [flat_wall_fires, Nat.add_sub_cancel, hflat,
        TileHeight.min_height, decide_eq_false_iff_not]
      rintro (hc | hc)
      · omega
      · exact lt_irrefl _ hc

/-- Witness for C5 at a concrete horizontal pair on `c5grid`. -/
theorem c5_no_wall_on_equal_height_witness :
    flat_wall_fires c5grid 0 0 1 .East = false ∧
    flat_wall_fires c5grid 1 0 1 .West = false :=
  c5_no_wall_on_equal_height c5grid 0 0 1 0 1
    (Or.inl ⟨rfl, rfl, by decide⟩) rfl rfl (by norm_num) rfl

/-- The single tile of the C2 scenario: `Flat { height: 0 }` with all four
connections `Unconditional(false)`. -/
def c2tile : TileData :=
  { defaultTile with connections :=
      { north := .Unconditional false, east := .Unconditional false
        south := .Unconditional false, west := .Unconditional false } }

/-- The 1-by-1 grid of the C2 scenario. -/
def c2grid : Grid := ⟨1, 1, fun _ _ => c2tile⟩

/-- Counterexample to C2: the `Flat { height: 0 }` tile equals the void
sentinel, so `mesh_map` skips it entirely — the atlas mesh has 0 vertices,
not the 4 a single top quad would contribute. -/
theorem c2_counterexample :
    (mesh_map_state c2grid).positions.length = 0 ∧
    (mesh_map_state c2grid).positions.length ≠ 4 := by decide

/-- Claim C2 as amended: on the 1-by-1 `Flat { height: 0 }` map the tile is
skipped as void, so the atlas mesh is empty (0 top quads and 0 wall quads)
and 0 blocks and 0 trims are spawned. -/
theorem c2_void_map_amended :
    mesh_map_state c2grid = State.new ∧
    mesh_map_blocks c2grid = [] ∧
    mesh_map_trim_count c2grid = 0 := by decide

/-- The flat tile of height `2.6` of the C3 scenario. -/
def c3tile : TileData := flatTile (13/5)

/-- A 1-by-2 grid: the height-`2.6` tile at `(0,0)`, the void at `(0,1)`. -/
def c3grid : Grid :=
  ⟨1, 2, fun y x => if y = 0 ∧ x = 0 then c3tile else defaultTile⟩

/-- The state `mesh_wall` leaves after meshing the east wall of the
height-`2.6` tile against the void. -/
def c3wall : State := (mesh_wall State.new c3grid 0 0 c3tile .East).2

/-- Counterexample to C3: the topmost wall segment's UV V-extent is not
`0.6 * V_INCREMENT` — the `0.001` atlas-bleed inset of `to_uv_coords`
shaves `0.002` off every band. -/
theorem c3_counterexample :
    (c3wall.uvs.getD 1 (0, 0)).2 - (c3wall.uvs.getD 0 (0, 0)).2 ≠
      3/5 * MpsMaterial.V_INCREMENT := by decide

/-- Claim C3 as amended: the height-`2.6` tile bordering the void emits
exactly 3 wall segments (12 vertices); the topmost spans heights 2.0 to 2.6
with V-extent `0.6 * V_INCREMENT - 0.002`, and the other two each span one
full unit with V-extent `1.0 * V_INCREMENT - 0.002`. -/
theorem c3_wall_segments_amended :
    c3wall.positions.length = 12 ∧
    (c3wall.positions.getD 0 (0, 0, 0)).2.1 = 13/5 ∧
    (c3wall.positions.getD 1 (0, 0, 0)).2.1 = 2 ∧
    (c3wall.uvs.getD 1 (0, 0)).2 - (c3wall.uvs.getD 0 (0, 0)).2 =
      3/5 * MpsMaterial.V_INCREMENT - 2/1000 ∧
    (c3wall.positions.getD 4 (0, 0, 0)).2.1 = 2 ∧
    (c3wall.positions.getD 5 (0, 0, 0)).2.1 = 1 ∧
    (c3wall.uvs.getD 5 (0, 0)).2 - (c3wall.uvs.getD 4 (0, 0)).2 =
      MpsMaterial.V_INCREMENT - 2/1000 ∧
    (c3wall.positions.getD 8 (0, 0, 0)).2.1 = 1 ∧
    (c3wall.positions.getD 9 (0, 0, 0)).2.1 = 0 ∧
    (c3wall.uvs.getD 9 (0, 0)).2 - (c3wall.uvs.getD 8 (0, 0)).2 =
      MpsMaterial.V_INCREMENT - 2/1000 := by decide

/-- A flat tile of height 3 with empty wall-material stacks. -/
def c7tile : TileData :=
  { flatTile 3 with wall_material := ⟨[], [], [], []⟩ }

/-- A 1-by-1 grid holding `c7tile`. -/
def c7grid : Grid := ⟨1, 1, fun _ _ => c7tile⟩

/-- A flat tile of height `-1` with empty wall-material stacks. -/
def c7negTile : TileData :=
  { flatTile (-1) with wall_material := ⟨[], [], [], []⟩ }

/-- A 1-by-1 grid holding `c7negTile`. -/
def c7negGrid : Grid := ⟨1, 1, fun _ _ => c7negTile⟩

/-- Counterexample to C7: with an empty stack on a flat tile whose
`min_height` is not positive (here `-1`), the segment loop runs zero times,
so `mesh_wall` returns `Some(())`, not `None`. -/
theorem c7_counterexample :
    wall_materials c7negTile .East = [] ∧
    (mesh_wall State.new c7negGrid 0 0 c7negTile .East).1 = some () ∧
    (mesh_wall State.new c7negGrid 0 0 c7negTile .East).1 ≠ none := by decide

/-- Claim C7 as amended: segment `i` (0 = topmost) is textured with
`materials[i]`, clamped to the stack's last entry when `i` is out of range;
and with an empty stack, `mesh_wall` returns `None` — leaving the buffers
untouched instead of panicking — whenever there is anything to texture
(the tile is a ramp, or at least one wall segment exists). -/
theorem c7_material_clamp_and_empty_stack :
    (∀ (materials : List MpsMaterial) (segments seg : ℕ) (h : materials ≠ []),
      wall_material_for materials segments seg =
        some (materials.getD (segments - 1 - seg) (materials.getLast h))) ∧
    (∀ (s : State) (g : Grid) (x y : ℕ) (tile : TileData) (d : Direction),
      wall_materials tile d = [] →
      (tile.ramp = true ∨ 1 ≤ segCount tile.height.min_height) →
      mesh_wall s g x y tile d = (none, s)) := by
  constructor
  · intro materials segments seg h
    unfold wall_material_for
    cases hg : materials.get? (segments - 1 - seg) with
    | some m =>
      have hlt : segments - 1 - seg < materials.length :=
        List.get?_eq_some.1 hg |>.1
      have hm : materials[segments - 1 - seg] = m := by
        have := hg
        rw [List.get?_eq_getElem? , List.getElem?_eq_getElem hlt] at this
        exact Option.some.inj this
      simp [Option.orElse, hg, List.getD_eq_getElem?_getD,
        List.getElem?_eq_getElem hlt, hm]
    | none =>
      have hge : materials.length ≤ segments - 1 - seg := by
        by_contra hcon
        push_neg at hcon
        exact absurd hg (by simp [List.get?_eq_getElem?, List.getElem?_eq_getElem hcon])
      simp [Option.orElse, hg, List.getD_eq_getElem?_getD,
        List.getElem?_eq_none hge, List.getLast?_eq_getLast _ h]
  · intro s g x y tile d hmat hseg
    cases htile : tile.height with
    | Flat h =>
      have hr : tile.ramp = false := by simp [TileData.ramp, htile]
      have h1 : 1 ≤ segCount tile.height.min_height := by
        rcases hseg with hc | hc
        · rw [hr] at hc; exact absurd hc (by simp)
        · exact hc
      obtain ⟨k, hk⟩ : ∃ k, segCount tile.height.min_height = k + 1 :=
        ⟨segCount tile.height.min_height - 1, by omega⟩
      simp only [mesh_wall, htile, hmat]
      rw [show segCount (TileHeight.Flat h).min_height =
            segCount tile.height.min_height by rw [htile], hk]
      simp [wall_segments, wall_material_for]
    | Ramp r =>
      simp [mesh_wall, htile, hmat]

/-- Witness for C7: the clamping equation at a two-entry stack with an
out-of-range topmost index, and the empty-stack `None` return on `c7tile`. -/
theorem c7_material_clamp_and_empty_stack_witness :
    wall_material_for [⟨0⟩, ⟨1⟩] 3 0 =
      some (List.getD [⟨0⟩, ⟨1⟩] 2 (List.getLast [⟨0⟩, ⟨1⟩] (by decide))) ∧
    mesh_wall State.new c7grid 0 0 c7tile .East = (none, State.new) :=
  ⟨c7_material_clamp_and_empty_stack.1 [⟨0⟩, ⟨1⟩] 3 0 (by decide),
   c7_material_clamp_and_empty_stack.2 State.new c7grid 0 0 c7tile .East rfl
     (Or.inr (by decide))⟩

/-- A flat tile of height 1 with an impassible east connection. -/
def c4tileA : TileData :=
  { flatTile 1 with connections :=
      { north := .Unconditional true, east := .Unconditional false
        south := .Unconditional true, west := .Unconditional true } }

/-- A 1-by-2 grid: two equal-height flat tiles, the west one's east
connection impassible. -/
def c4grid : Grid := ⟨1, 2, fun _ x => if x = 0 then c4tileA else flatTile 1⟩

/-- Counterexample to C4: at an impassible east connection between two
equal-height non-ramp tiles, the claim requires a block centered on the
boundary, but `mesh_map` spawns no block at all — east (and south) blocks
fire only on strictly greater height. -/
theorem c4_counterexample :
    (c4grid.get 0 0).connections.east.impassible = true ∧
    (c4grid.get 0 0).ramp = false ∧
    (c4grid.get 0 1).ramp = false ∧
    (c4grid.get 0 0).height ≠ TileHeight.defaultHeight ∧
    (c4grid.get 0 0).height.center_height =
      (c4grid.get 0 1).height.center_height ∧
    mesh_map_blocks c4grid = [] := by decide

/-- Every block a non-void in-bounds tile contributes is spawned by
`mesh_map`. -/
theorem tile_blocks_subset (g : Grid) (x y : ℕ)
    (hy : y < g.rows) (hx : x < g.cols)
    (hnv : (g.get y x).height ≠ TileHeight.defaultHeight) :
    tile_blocks g y x ⊆ mesh_map_blocks g := by
  intro b hb
  unfold mesh_map_blocks
  rw [List.mem_flatMap]
  refine ⟨y, List.mem_range.2 hy, ?_⟩
  rw [List.mem_flatMap]
  refine ⟨x, List.mem_range.2 hx, ?_⟩
  simp [hnv, hb]

/-- Claim C4 as amended: for a non-ramp interior tile with impassible
connections and non-ramp neighbors, the west and north sides spawn a flush
block (inset by `BLOCK_SIZE_2`) on strictly greater height and a centered
block on exactly equal height, while the east and south sides spawn a
flush block only on strictly greater height and nothing on equal height;
all spawned blocks reach `mesh_map`'s children. -/
theorem c4_block_asymmetry (g : Grid) (x y : ℕ)
    (hxl : 0 < x) (hxr : x < g.cols - 1) (hyl : 0 < y) (hyr : y < g.rows - 1)
    (hnv : (g.get y x).height ≠ TileHeight.defaultHeight)
    (hself : (g.get y x).ramp = false)
    (hw : (g.get y x).connections.west.impassible = true)
    (he : (g.get y x).connections.east.impassible = true)
    (hn : (g.get y x).connections.north.impassible = true)
    (hs : (g.get y x).connections.south.impassible = true)
    (hwr : (g.get y (x - 1)).ramp = false)
    (hnr : (g.get (y - 1) x).ramp = false) :
    (tile_blocks_west g y x =
      (if (g.get y (x - 1)).height.center_height <
            (g.get y x).height.center_height then
        [⟨BLOCK_SIZE, 1, (x : ℚ) - 1/2 + BLOCK_SIZE_2,
          (g.get y x).height.center_height + BLOCK_SIZE_2, (y : ℚ)⟩]
      else if (g.get y x).height.center_height =
            (g.get y (x - 1)).height.center_height then
        [⟨BLOCK_SIZE, 1, (x : ℚ) - 1/2,
          (g.get y x).height.center_height + BLOCK_SIZE_2, (y : ℚ)⟩]
      else [])) ∧
    (tile_blocks_east g y x =
      (if (g.get y (x + 1)).height.center_height <
            (g.get y x).height.center_height then
        [⟨BLOCK_SIZE, 1, (x : ℚ) + 1/2 - BLOCK_SIZE_2,
          (g.get y x).height.center_height + BLOCK_SIZE_2, (y : ℚ)⟩]
      else [])) ∧
    (tile_blocks_north g y x =
      (if (g.get (y - 1) x).height.center_height <
            (g.get y x).height.center_height then
        [⟨1, BLOCK_SIZE, (x : ℚ),
          (g.get y x).height.center_height + BLOCK_SIZE_2,
          (y : ℚ) - 1/2 + BLOCK_SIZE_2⟩]
      else if (g.get y x).height.center_height =
            (g.get (y - 1) x).height.center_height then
        [⟨1, BLOCK_SIZE, (x : ℚ),
          (g.get y x).height.center_height + BLOCK_SIZE_2, (y : ℚ) - 1/2⟩]
      else [])) ∧
    (tile_blocks_south g y x =
      (if (g.get (y + 1) x).height.center_height <
            (g.get y x).height.center_height then
        [⟨1, BLOCK_SIZE, (x : ℚ),
          (g.get y x).height.center_height + BLOCK_SIZE_2,
          (y : ℚ) + 1/2 - BLOCK_SIZE_2⟩]
      else [])) ∧
    tile_blocks g y x ⊆ mesh_map_blocks g := by
  refine ⟨?_, ?_, ?_, ?_,
    tile_blocks_subset g x y (by omega) (by omega) hnv⟩
  · rw [tile_blocks_west]
    simp only [hxl, hw, hself, hwr, Bool.not_false, and_self, if_pos,
      true_and, and_true]
  · rw [tile_blocks_east]
    split
    · rename_i hcond
      simp only [if_pos hcond.2.2.2]
    · rename_i hcond
      rw [if_neg]
      intro hc
      exact hcond ⟨hxr, he, by simp [hself], hc⟩
  · rw [tile_blocks_north]
    simp only [hyl, hn, hself, hnr, Bool.not_false, and_self, if_pos,
      true_and, and_true]
  · rw [tile_blocks_south]
    split
    · rename_i hcond
      simp only [if_pos hcond.2.2.2]
    · rename_i hcond
      rw [if_neg]
      intro hc
      exact hcond ⟨hyr, hs, by simp [hself], hc⟩

/-- The center tile of the C4 witness grid: flat height 2, all four
connections impassible. -/
def c4centerTile : TileData :=
  { flatTile 2 with connections :=
      { north := .Unconditional false, east := .Unconditional false
        south := .Unconditional false, west := .Unconditional false } }

/-- A 3-by-3 witness grid: the center tile has a lower west neighbor, an
equal east neighbor, an equal north neighbor and a higher south neighbor,
all flat. -/
def c4wgrid : Grid :=
  ⟨3, 3, fun y x =>
    if y = 1 ∧ x = 1 then c4centerTile
    else if y = 1 ∧ x = 0 then flatTile 1
    else if y = 1 ∧ x = 2 then flatTile 2
    else if y = 0 ∧ x = 1 then flatTile 2
    else if y = 2 ∧ x = 1 then flatTile 3
    else flatTile 1⟩

/-- Witness for C4 at the center of `c4wgrid`. -/
theorem c4_block_asymmetry_witness :
    (tile_blocks_west c4wgrid 1 1 =
      (if (c4wgrid.get 1 0).height.center_height <
            (c4wgrid.get 1 1).height.center_height then
        [⟨BLOCK_SIZE, 1, ((1 : ℕ) : ℚ) - 1/2 + BLOCK_SIZE_2,
          (c4wgrid.get 1 1).height.center_height + BLOCK_SIZE_2,
          ((1 : ℕ) : ℚ)⟩]
      else if (c4wgrid.get 1 1).height.center_height =
            (c4wgrid.get 1 0).height.center_height then
        [⟨BLOCK_SIZE, 1, ((1 : ℕ) : ℚ) - 1/2,
          (c4wgrid.get 1 1).height.center_height + BLOCK_SIZE_2,
          ((1 : ℕ) : ℚ)⟩]
      else [])) ∧
    (tile_blocks_east c4wgrid 1 1 =
      (if (c4wgrid.get 1 2).height.center_height <
            (c4wgrid.get 1 1).height.center_height then
        [⟨BLOCK_SIZE, 1, ((1 : ℕ) : ℚ) + 1/2 - BLOCK_SIZE_2,
          (c4wgrid.get 1 1).height.center_height + BLOCK_SIZE_2,
          ((1 : ℕ) : ℚ)⟩]
      else [])) ∧
    (tile_blocks_north c4wgrid 1 1 =
      (if (c4wgrid.get 0 1).height.center_height <
            (c4wgrid.get 1 1).height.center_height then
        [⟨1, BLOCK_SIZE, ((1 : ℕ) : ℚ),
          (c4wgrid.get 1 1).height.center_height + BLOCK_SIZE_2,
          ((1 : ℕ) : ℚ) - 1/2 + BLOCK_SIZE_2⟩]
      else if (c4wgrid.get 1 1).height.center_height =
            (c4wgrid.get 0 1).height.center_height then
        [⟨1, BLOCK_SIZE, ((1 : ℕ) : ℚ),
          (c4wgrid.get 1 1).height.center_height + BLOCK_SIZE_2,
          ((1 : ℕ) : ℚ) - 1/2⟩]
      else [])) ∧
    (tile_blocks_south c4wgrid 1 1 =
      (if (c4wgrid.get 2 1).height.center_height <
            (c4wgrid.get 1 1).height.center_height then
        [⟨1, BLOCK_SIZE, ((1 : ℕ) : ℚ),
          (c4wgrid.get 1 1).height.center_height + BLOCK_SIZE_2,
          ((1 : ℕ) : ℚ) + 1/2 - BLOCK_SIZE_2⟩]
      else [])) ∧
    tile_blocks c4wgrid 1 1 ⊆ mesh_map_blocks c4wgrid :=
  c4_block_asymmetry c4wgrid 1 1 (by decide) (by decide) (by decide)
    (by decide) (by decide) (by decide) (by decide) (by decide) (by decide)
    (by decide) (by decide) (by decide)

/-! ## Mesh well-formedness (claim C9) -/

/-- A well-formed accumulator: positions and UVs agree in length, the
index buffer is whole triangles, and every index addresses a position. -/
def State.wf (s : State) : Prop :=
  s.positions.length = s.uvs.length ∧
  s.indices.length % 3 = 0 ∧
  ∀ i ∈ s.indices, i < s.positions.length

/-- `State.new` is well-formed. -/
theorem wf_new : State.new.wf :=
  ⟨rfl, rfl, by intro i hi; simp [State.new] at hi⟩

/-- Appending matching position/UV batches and in-range whole triangles
preserves well-formedness. -/
theorem wf_append (s : State) (ps : List (ℚ × ℚ × ℚ)) (us : List (ℚ × ℚ))
    (ixs : List ℕ) (hwf : s.wf) (hlen : ps.length = us.length)
    (h3 : ixs.length % 3 = 0)
    (hidx : ∀ j ∈ ixs, j < s.positions.length + ps.length) :
    State.wf ⟨s.positions ++ ps, s.uvs ++ us, s.indices ++ ixs⟩ := by
  obtain ⟨h1, h2, h4⟩ := hwf
  refine ⟨by simp [h1, hlen], by simp only [List.length_append]; omega, ?_⟩
  intro i hi
  rw [List.mem_append] at hi
  rw [List.length_append]
  rcases hi with hi | hi
  · have := h4 i hi
    omega
  · exact hidx i hi

/-- `push_quad_uv_indices` after pushing 4 positions, with `index_start`
at the old position count, preserves well-formedness. -/
theorem push_quad_uv_indices_wf (s : State) (uv : ℚ × ℚ × ℚ × ℚ)
    (ps : List (ℚ × ℚ × ℚ)) (hwf : s.wf) (hlen : ps.length = 4) :
    (State.push_quad_uv_indices { s with positions := s.positions ++ ps }
      uv s.positions.length).wf := by
  obtain ⟨u1, v1, u2, v2⟩ := uv
  simp only [State.push_quad_uv_indices, State.push_quad_indices]
  refine wf_append s ps [(u1, v1), (u2, v1), (u1, v2), (u2, v2)] _ hwf
    (by simp [hlen]) (by simp) ?_
  intro j hj
  simp only [List.mem_cons, List.not_mem_nil, or_false] at hj
  rcases hj with h | h | h | h | h | h <;> omega

/-- `internal_mesh_top` preserves well-formedness. -/
theorem imt_wf (s : State) (x y : ℕ) (tile : TileData) (o : ℚ)
    (hwf : s.wf) : (internal_mesh_top s x y tile o).wf := by
  cases htile : tile.height with
  | Flat h =>
    simp only [internal_mesh_top, htile]
    exact push_quad_uv_indices_wf s _ _ hwf rfl
  | Ramp r =>
    simp only [internal_mesh_top, htile]
    exact push_quad_uv_indices_wf s _ _ hwf rfl

/-- `seg_positions` always holds 4 vertices. -/
theorem seg_positions_length (x y : ℕ) (a b : ℚ) (d : Direction) :
    (seg_positions x y a b d).length = 4 := by cases d <;> rfl

/-- `seg_uvs` always holds 4 UVs. -/
theorem seg_uvs_length (u1 v1 u2 v2 : ℚ) (d : Direction) :
    (seg_uvs u1 v1 u2 v2 d).length = 4 := by cases d <;> rfl

/-- `cap_positions` always holds 3 vertices. -/
theorem cap_positions_length (x y : ℕ) (a b c : ℚ) (d : Direction) :
    (cap_positions x y a b c d).length = 3 := by cases d <;> rfl

/-- `cap_uvs` always holds 3 UVs. -/
theorem cap_uvs_length (u1 u2 v2 hv : ℚ) (b : Bool) (d : Direction) :
    (cap_uvs u1 u2 v2 hv b d).length = 3 := by cases d <;> rfl

/-- One wall-segment push preserves well-formedness when `index_start`
is the old position count. -/
theorem wall_seg_push_wf (s : State) (x y : ℕ) (m : MpsMaterial)
    (segments seg : ℕ) (last_segment : ℚ) (direction : Direction)
    (hwf : s.wf) :
    (wall_seg_push s x y m segments seg last_segment direction
      s.positions.length).wf := by
  rw [wall_seg_push]
  have hps := seg_positions_length x y (seg : ℚ)
    (if seg = segments - 1 then last_segment else 1) direction
  have hus : ∀ a b c d2, (seg_uvs a b c d2 direction).length = 4 :=
    fun a b c d2 => seg_uvs_length a b c d2 direction
  cases hf : seg_flipped direction with
  | true =>
    simp only [if_pos, State.push_flipped_quad_indices]
    refine wf_append s _ _ _ hwf (by rw [hps, hus]) (by simp) ?_
    intro j hj
    rw [hps]
    simp only [List.mem_cons, List.not_mem_nil, or_false] at hj
    rcases hj with h | h | h | h | h | h <;> omega
  | false =>
    simp only [if_neg, State.push_quad_indices]
    refine wf_append s _ _ _ hwf (by rw [hps, hus]) (by simp) ?_
    intro j hj
    rw [hps]
    simp only [List.mem_cons, List.not_mem_nil, or_false] at hj
    rcases hj with h | h | h | h | h | h <;> omega

/-- One wall-segment push grows the position buffer by exactly 4. -/
theorem wall_seg_push_length (s : State) (x y : ℕ) (m : MpsMaterial)
    (segments seg : ℕ) (last_segment : ℚ) (direction : Direction)
    (index_start : ℕ) :
    (wall_seg_push s x y m segments seg last_segment direction
      index_start).positions.length = s.positions.length + 4 := by
  rw [wall_seg_push]
  cases hf : seg_flipped direction <;>
    simp [State.push_flipped_quad_indices, State.push_quad_indices,
      seg_positions_length]

/-- The wall-segment loop preserves well-formedness, provided
`index_start` tracks the position count. -/
theorem wall_segments_wf (g : Grid) (x y : ℕ)
    (materials : List MpsMaterial) (segments : ℕ) (last_segment : ℚ)
    (direction : Direction) :
    ∀ (n index_start : ℕ) (s : State), s.wf →
      index_start = s.positions.length →
      ((wall_segments g x y materials segments last_segment direction n
        index_start s).2).wf
  | 0, _, s, hwf, _ => hwf
  | n + 1, index_start, s, hwf, hidx => by
    rw [wall_segments]
    cases hm : wall_material_for materials segments n with
    | none => exact hwf
    | some m =>
      have hstep : (wall_seg_push s x y m segments n last_segment direction
          index_start).wf := by
        rw [hidx]; exact wall_seg_push_wf s x y m segments n last_segment
          direction hwf
      have hlen : index_start + 4 = (wall_seg_push s x y m segments n
          last_segment direction index_start).positions.length := by
        rw [wall_seg_push_length, hidx]
      simp only []
      split
      · exact hstep
      · exact wall_segments_wf g x y materials segments last_segment
          direction n (index_start + 4) _ hstep hlen

/-- The ramp-cap push preserves well-formedness. -/
theorem cap_push_wf (s : State) (x y : ℕ) (m : MpsMaterial) (r : TileRamp)
    (min_height : ℚ) (direction : Direction) (hwf : s.wf) :
    (cap_push s x y m r min_height direction).wf := by
  rw [cap_push]
  refine wf_append s _ _ _ hwf
    (by rw [cap_positions_length, cap_uvs_length]) ?_ ?_
  · cases direction <;> simp [cap_indices]
  · intro j hj
    rw [cap_positions_length]
    cases direction <;>
      simp only [cap_indices, List.mem_cons, List.not_mem_nil,
        or_false] at hj <;>
      rcases hj with h | h | h <;> omega

/-- The ramp-cap push grows the position buffer by exactly 3. -/
theorem cap_push_length (s : State) (x y : ℕ) (m : MpsMaterial)
    (r : TileRamp) (min_height : ℚ) (direction : Direction) :
    (cap_push s x y m r min_height direction).positions.length =
      s.positions.length + 3 := by
  rw [cap_push]
  simp [cap_positions_length]

/-- `mesh_wall` preserves well-formedness. -/
theorem mesh_wall_wf (s : State) (g : Grid) (x y : ℕ) (tile : TileData)
    (d : Direction) (hwf : s.wf) : ((mesh_wall s g x y tile d).2).wf := by
  cases htile : tile.height with
  | Flat h =>
    simp only [mesh_wall, htile]
    exact wall_segments_wf g x y _ _ _ d _ _ s hwf rfl
  | Ramp r =>
    simp only [mesh_wall, htile]
    cases hm : (wall_materials tile d).head? with
    | none => exact hwf
    | some m =>
      simp only []
      exact wall_segments_wf g x y _ _ _ d _ _ _
        (cap_push_wf s x y m r _ d hwf)
        (by rw [cap_push_length])

/-- A conditional wall call preserves well-formedness. -/
theorem mesh_wall_if_wf (c : Prop) [Decidable c] (s : State) (g : Grid)
    (x y : ℕ) (tile : TileData) (d : Direction) (hwf : s.wf) :
    (if c then (mesh_wall s g x y tile d).2 else s).wf := by
  split
  · exact mesh_wall_wf s g x y tile d hwf
  · exact hwf

/-- One `mesh_map` tile iteration preserves well-formedness. -/
theorem tile_step_wf (g : Grid) (y x : ℕ) (s : State) (hwf : s.wf) :
    (tile_step g y x s).wf := by
  rw [tile_step]
  split
  · exact hwf
  · split
    · exact mesh_wall_if_wf _ _ _ _ _ _ _ (mesh_wall_if_wf _ _ _ _ _ _ _
        (mesh_wall_if_wf _ _ _ _ _ _ _ (mesh_wall_if_wf _ _ _ _ _ _ _
          (imt_wf s x y (g.get y x) 0 hwf))))
    · exact mesh_wall_if_wf _ _ _ _ _ _ _ (mesh_wall_if_wf _ _ _ _ _ _ _
        (mesh_wall_if_wf _ _ _ _ _ _ _ (mesh_wall_if_wf _ _ _ _ _ _ _
          (imt_wf s x y (g.get y x) 0 hwf))))

/-- Folding a well-formedness-preserving step preserves well-formedness. -/
theorem foldl_wf {α : Type} (f : State → α → State)
    (hf : ∀ s a, s.wf → (f s a).wf) :
    ∀ (l : List α) (s : State), s.wf → (l.foldl f s).wf := by
  intro l
  induction l with
  | nil => intro s hs; simpa using hs
  | cons a t ih =>
    intro s hs
    rw [List.foldl_cons]
    exact ih _ (hf s a hs)

/-- The whole `mesh_map` atlas accumulator is well-formed. -/
theorem mesh_map_state_wf (g : Grid) : (mesh_map_state g).wf := by
  rw [mesh_map_state]
  refine foldl_wf _ ?_ _ _ wf_new
  intro s yy hs
  refine foldl_wf _ ?_ _ _ hs
  intro s2 xx hs2
  exact tile_step_wf g yy xx s2 hs2

/-- The floor-overlay quad state is well-formed. -/
theorem floor_state_wf (g : Grid) : (floor_state g).wf := by
  rw [floor_state]
  simp only [State.push_quad_uv_indices, State.push_quad_indices, State.new]
  refine ⟨by simp, by simp, ?_⟩
  intro i hi
  fin_cases hi <;> simp

/-- The highlight overlay state is well-formed. -/
theorem mesh_top_highlights_state_wf (g : Grid) (r : TileRange) :
    (mesh_top_highlights_state g r).wf := by
  rw [mesh_top_highlights_state]
  refine foldl_wf _ ?_ _ _ wf_new
  intro s yy hs
  refine foldl_wf _ ?_ _ _ hs
  intro s2 xx hs2
  exact imt_wf s2 xx yy (g.get yy xx) (1/100) hs2

/-- Claim C9: every mesh the engine accumulates — the `mesh_map` atlas
surface, the floor quad, and the highlight overlay — is well-formed at
finalization: positions and UVs have equal length, the index count is a
multiple of 3, and every index is strictly below the position count. -/
theorem c9_mesh_buffers_well_formed (g : Grid) (r : TileRange) :
    (mesh_map_state g).wf ∧ (floor_state g).wf ∧
    (mesh_top_highlights_state g r).wf :=
  ⟨mesh_map_state_wf g, floor_state_wf g, mesh_top_highlights_state_wf g r⟩

end MspMap
